import Mathlib

/-!
# Verification of the igscrapper Instagram-Reels scraper

A shallow embedding, in Lean 4, of the core logic of the `igscrapper`
repository: URL discovery by incremental scrolling (`igscraper/scraper.py`,
`main.py`), per-reel detail extraction with primary/fallback strategies
(`igscraper/scraper.py`), 2FA handling (`igscraper/login.py`), cookie loading
(`igscraper/browser.py`), proxy rotation (`igscraper/proxy_rotator.py`) and
the database statistics/cleanup operations (`database.py`).

Python strings are modelled as Lean `String`/`List Char`; Python `None` as
`Option.none`; Python truthiness on strings as "some non-empty string";
exceptions as `Except`.  Browser pages are modelled as scripted inputs: the
values that the DOM queries and script evaluations of the source return.
-/

set_option autoImplicit false

namespace IgScraper

/-! ## Python string primitives

`pySplit` models Python `str.split(sep)` for a non-empty separator
(non-overlapping, leftmost-first, keeps empty segments).  It is written with
explicit fuel so that it is structurally recursive and kernel-reducible;
`fuel = length + 1` always suffices because every step consumes at least one
character of the input. -/

/-- One-sided splitter over characters: splits `xs` at every non-overlapping
leftmost occurrence of `sep`, accumulating the current segment in `cur`
(reversed).  Faithful to Python `str.split` for non-empty `sep`. -/
def splitFuel (sep : List Char) : Nat → List Char → List Char → List (List Char)
  | 0, _, cur => [cur.reverse]
  | _ + 1, [], cur => [cur.reverse]
  | Nat.succ n, x :: xs, cur =>
    if sep.isPrefixOf (x :: xs) then
      cur.reverse :: splitFuel sep n ((x :: xs).drop sep.length) []
    else
      splitFuel sep n xs (x :: cur)

/-- Python `s.split(sep)` for non-empty `sep`. -/
def pySplit (sep s : String) : List String :=
  (splitFuel sep.toList (s.toList.length + 1) s.toList []).map String.mk

/-- Python `needle in hay` (substring containment). -/
def containsSub (needle : List Char) : List Char → Bool
  | [] => needle.isEmpty
  | x :: xs => needle.isPrefixOf (x :: xs) || containsSub needle xs

/-- Python `needle in hay` on strings. -/
def pyIn (needle hay : String) : Bool :=
  containsSub needle.toList hay.toList

/-- Characters removed by Python `str.strip()` (the common whitespace ones). -/
def isPyWs (c : Char) : Bool :=
  c = ' ' || c = '\t' || c = '\n' || c = '\r' || c = '\x0b' || c = '\x0c'

/-- Python `s.strip()`. -/
def pyStrip (s : String) : String :=
  String.mk (((s.toList.dropWhile isPyWs).reverse.dropWhile isPyWs).reverse)

/-- Python truthiness of an optional string: `None` and `""` are falsy. -/
def truthy : Option String → Bool
  | none => false
  | some s => !(s == "")

/-- Python `a or b` on optional strings: returns `a` when truthy, else `b`. -/
def pyOr (a b : Option String) : Option String :=
  if truthy a then a else b

/-! ## URL canonicalization and shortcode derivation

`canonical` models `href.split("?")[0]` (main.py, lines 833/845/867/897).
`deriveShortcode` models `reel_url.split("/reel/")[-1].split("/")[0]`
(igscraper/scraper.py, line 27). -/

/-- Model of `href.split("?")[0]`: the canonical URL, query parameters stripped. -/
def canonical (url : String) : String :=
  (pySplit "?" url).headD ""

/-- Model of `reel_url.split("/reel/")[-1].split("/")[0]`: the derived shortcode. -/
def deriveShortcode (reel_url : String) : String :=
  (pySplit "/" ((pySplit "/reel/" reel_url).getLastD "")).headD ""

example : canonical "https://x/reel/A/?hl=en" = "https://x/reel/A/" := by decide
example : canonical "https://x/reel/A/" = "https://x/reel/A/" := by decide
example : deriveShortcode "https://x/reel/abc123/" = "abc123" := by decide
example : deriveShortcode "https://x/reel/abc123" = "abc123" := by decide
example : deriveShortcode "/a" = "" := by decide
example : deriveShortcode "https://x/reel//b" = "" := by decide
example : pyStrip "  p1 \t" = "p1" := by decide
example : pyIn "Clip" "VideoClipThing" = true := by decide
example : pyIn "Clip" "Video" = false := by decide

/-! ## Per-reel detail extraction (`scrape_reel_details`, igscraper/scraper.py)

The page visited for one reel URL is modelled by the values its DOM queries
return.  `jsonLD = none` covers: no `script[type="application/ld+json"]`
element, a JSON parse error, or a parsed value that is not a dictionary
(after unwrapping a list) — in all those cases the source sets neither
caption nor date from Method 1.  The `Option String` DOM fields are `none`
when the queried element is absent, `some t` when present with text `t`. -/

/-- The parsed JSON-LD dictionary, as read by lines 65-69 of scraper.py. -/
structure JsonLD where
  typeStr : String
  caption : Option String
  description : Option String
  name : Option String
  uploadDate : Option String
  datePublished : Option String

/-- Scripted responses of the single-reel page. `navError = true` models an
exception raised by `page.goto`/processing, caught at line 143. -/
structure PageModel where
  navError : Bool
  jsonLD : Option JsonLD
  h1Text : Option String
  spanText : Option String
  timeDatetime : Option String

/-- The `details` dictionary of scraper.py lines 29-36 (the constant fields
`is_video`/`type` omitted). -/
structure ReelDetails where
  shortcode : String
  url : String
  date : Option String
  caption : Option String
deriving DecidableEq

/-- Method 1 (lines 49-90): caption and date extracted from JSON-LD, or
`(none, none)` when the tag is absent, unparsable, or of the wrong type. -/
def jsonLDExtract (pg : PageModel) : Option String × Option String :=
  match pg.jsonLD with
  | none => (none, none)
  | some d =>
    if pyIn "VideoObject" d.typeStr || pyIn "Clip" d.typeStr then
      (pyOr d.caption (pyOr d.description d.name),
       pyOr d.uploadDate d.datePublished)
    else (none, none)

/-- Caption part of Method 2 (lines 97-116): `h1` first, then the
class-based span selector; leaves the caption unchanged if neither exists. -/
def htmlCaption (pg : PageModel) (cap : Option String) : Option String :=
  match pg.h1Text with
  | some t => some t
  | none =>
    match pg.spanText with
    | some t => some t
    | none => cap

/-- Date part of Method 2 (lines 119-127): the `time[datetime]` attribute. -/
def htmlDate (pg : PageModel) (date : Option String) : Option String :=
  match pg.timeDatetime with
  | some t => some t
  | none => date

/-- Lines 27-131 of scraper.py: build the `details` dictionary, instrumented
with the number of times the DOM caption-fallback block (lines 97-112)
executes. -/
def buildDetailsI (url : String) (pg : PageModel) : ReelDetails × Nat :=
  let shortcode := deriveShortcode url
  let (cap0, date0) := jsonLDExtract pg
  if !truthy cap0 || !truthy date0 then
    let capRun : Option String × Nat :=
      if !truthy cap0 then (htmlCaption pg cap0, 1) else (cap0, 0)
    let date1 := if !truthy date0 then htmlDate pg date0 else date0
    ({ shortcode := shortcode, url := url, date := date1,
       caption := capRun.1 }, capRun.2)
  else
    ({ shortcode := shortcode, url := url, date := date0,
       caption := cap0 }, 0)

/-- The `details` dictionary as finally assembled. -/
def buildDetails (url : String) (pg : PageModel) : ReelDetails :=
  (buildDetailsI url pg).1

/-- How many times the DOM caption fallback ran. -/
def captionFallbackRuns (url : String) (pg : PageModel) : Nat :=
  (buildDetailsI url pg).2

/-- Line 135 of scraper.py: `if details["shortcode"] and (details["caption"]
or details["date"])` — Python truthiness on strings. -/
def validDetails (d : ReelDetails) : Bool :=
  !(d.shortcode == "") && (truthy d.caption || truthy d.date)

/-- Model of `scrape_reel_details`: `none` on a navigation/processing exception or
when validation fails, `some details` otherwise. -/
def scrape_reel_details (url : String) (pg : PageModel) : Option ReelDetails :=
  if pg.navError then none
  else if validDetails (buildDetails url pg) then some (buildDetails url pg)
  else none

/-! ## Discovery scroll loop (`scrape_reels`, igscraper/scraper.py 158-245)

The loop is scripted by the successive values returned by the in-page
evaluations: an initial scroll-height reading, then per iteration one link
snapshot and one new height reading.  Each scripted evaluation is an
`Except Unit _`: `.error ()` models the evaluation raising.  A script too
short for the loop is also an `.error ()` (the real page always answers). -/

/-- One scripted loop iteration: the link snapshot returned by the
`querySelectorAll` evaluation and the height returned by the
`document.body.scrollHeight` re-measurement. -/
structure ScrollStep where
  links : Except Unit (List String)
  height : Except Unit Nat

/-- Model of `reel_urls.update(new_urls)` on an order-keeping list model of the set:
append each URL not already present. -/
def updateSet (acc : List String) (xs : List String) : List String :=
  xs.foldl (fun a u => if u ∈ a then a else a.concat u) acc

/-- Loop state after exit: collected unique URLs, `scroll_count`, `attempts`. -/
structure ScrollExit where
  urls : List String
  scrollCount : Nat
  attempts : Nat
deriving DecidableEq

/-- Lines 201-206: `attempts += 1` when the re-measured height equals the
pre-scroll one, `attempts = 0` otherwise. -/
def stallUpdate (lastHeight newHeight attempts : Nat) : Nat :=
  if newHeight = lastHeight then attempts + 1 else 0

/-- The `while attempts < 3 and scroll_count < max_scroll_attempts` loop of
lines 178-207, with `max_scroll_attempts = 25`. -/
def scrollLoop (attempts scrollCount lastHeight : Nat) (urls : List String) :
    List ScrollStep → Except Unit ScrollExit
  | [] =>
    if attempts < 3 ∧ scrollCount < 25 then .error ()
    else .ok { urls := urls, scrollCount := scrollCount, attempts := attempts }
  | st :: rest =>
    if attempts < 3 ∧ scrollCount < 25 then do
      let links ← st.links
      let urls' := updateSet urls links
      let newHeight ← st.height
      scrollLoop (stallUpdate lastHeight newHeight attempts)
        (scrollCount + 1) newHeight urls' rest
    else .ok { urls := urls, scrollCount := scrollCount, attempts := attempts }

/-- The whole scripted page for one account: the initial height reading and
the per-iteration steps, plus (for the detail phase) the page each reel URL
leads to. -/
structure AccountScript where
  initialHeight : Except Unit Nat
  steps : List ScrollStep
  detailPage : String → PageModel

/-- The body of the `try` block of `scrape_reels` (lines 163-227): collect unique
URLs by scrolling, then scrape details per URL, dropping invalid reels. -/
def scrapeReelsBody (s : AccountScript) : Except Unit (List ReelDetails) := do
  let h0 ← s.initialHeight
  let ex ← scrollLoop 0 0 h0 [] s.steps
  .ok (ex.urls.filterMap (fun u => scrape_reel_details u (s.detailPage u)))

/-- Model of `scrape_reels`: any exception in the body is caught at line 229 and the
account yields `[]` (the page-content inspection there only logs). -/
def scrape_reels (s : AccountScript) : List ReelDetails :=
  match scrapeReelsBody s with
  | .ok l => l
  | .error _ => []

/-- Only the URL-discovery phase of `scrape_reels`: the deduplicated list
`unique_reel_urls` of line 212 (empty on an uncaught-then-caught error). -/
def discoveredUrls (s : AccountScript) : List String :=
  match (do
    let h0 ← s.initialHeight
    let ex ← scrollLoop 0 0 h0 [] s.steps
    pure ex.urls : Except Unit (List String)) with
  | .ok l => l
  | .error _ => []

/-! ## The main.py feed collector (`scrape_post_urls_from_feed`, 854-900)

Each detection method there cleans the href first and dedups on the cleaned
form: `clean_url = href.split("?")[0]; if clean_url not in post_urls:
post_urls.add(clean_url)`. -/

/-- One snapshot pass of the reel-link detection of main.py over found hrefs. -/
def feedCollect (acc : List String) (hrefs : List String) : List String :=
  hrefs.foldl
    (fun a href =>
      let cleanUrl := canonical href
      if cleanUrl ∈ a then a else a.concat cleanUrl)
    acc

/-! ## 2FA handling (`handle_2fa`, igscraper/login.py 49-118)

The page and the operator are scripted: which detection probes succeed,
whether `input()` yields a code (`none` models `EOFError` in a
non-interactive context), and whether the code input field and the
confirmation button are found when queried. -/

/-- Scripted 2FA environment. -/
structure TwoFAPage where
  codeFieldDetected : Bool
  keywordsPresent : Bool
  userCode : Option String
  codeInputPresent : Bool
  confirmButtonPresent : Bool

/-- Lines 56-74: the prompt is detected via the `verificationCode` input
field, or failing that via security keywords in the rendered page text. -/
def is2faScreen (p : TwoFAPage) : Bool :=
  p.codeFieldDetected || p.keywordsPresent

/-- Model of `handle_2fa`: `false` when the prompt was detected but cannot be
satisfied (no code from `input()`, or input field / confirmation button
absent); `true` when the code is submitted, and also when no prompt was
detected at all (line 114). -/
def handle_2fa (p : TwoFAPage) : Bool :=
  if is2faScreen p then
    match p.userCode with
    | none => false
    | some _ =>
      if !p.codeInputPresent then false
      else if !p.confirmButtonPresent then false
      else true
  else true

/-! ## Cookie loading (`load_cookies`, igscraper/browser.py 57-103) -/

/-- Outcome of one cookie source. `absent`: the env var is unset/empty, or
the cookie file does not exist. `parseError`: `json.loads`/`json.load`
raises. `notAList`: the parsed JSON is not a list. `applyError`:
`page.setCookie` raises. `valid cs`: the cookies `cs` are applied. -/
inductive CookieOutcome where
  | absent
  | parseError
  | notAList
  | applyError (cs : List String)
  | valid (cs : List String)
deriving DecidableEq

/-- Whether the source sets `cookies_loaded = True` in the source. -/
def cookieLoads : CookieOutcome → Bool
  | .valid _ => true
  | _ => false

/-- Observable result of `load_cookies`. -/
structure CookieLoadResult where
  loaded : Bool
  appliedCookies : Option (List String)
  fromEnv : Bool
  fileConsulted : Bool
deriving DecidableEq

/-- Model of `load_cookies`: the env var is tried first; the file block runs only
when `cookies_loaded` is still false afterwards (line 81). -/
def load_cookies (env file : CookieOutcome) : CookieLoadResult :=
  match env with
  | .valid cs =>
    { loaded := true, appliedCookies := some cs, fromEnv := true,
      fileConsulted := false }
  | _ =>
    match file with
    | .valid cs =>
      { loaded := true, appliedCookies := some cs, fromEnv := false,
        fileConsulted := true }
    | _ =>
      { loaded := false, appliedCookies := none, fromEnv := false,
        fileConsulted := true }

/-! ## Proxy rotation (`ProxyRotator`, igscraper/proxy_rotator.py) -/

/-- The proxy source at construction time: no path given, the path is not a
file, reading raises, or the file content as its list of lines. -/
inductive ProxySource where
  | noFile
  | fileMissing
  | readError
  | content (lines : List String)

/-- Line 37: `[line.strip() for line in f if line.strip()]`; every failure
branch of `__init__` leaves `self.proxies = []`. -/
def loadProxies : ProxySource → List String
  | .content lines => (lines.map pyStrip).filter (fun l => !(l == ""))
  | _ => []

/-- Rotator state: `itertools.cycle` is modelled by a cursor counting the
calls made so far; `next` returns `proxies[cursor % len]`. -/
structure ProxyRotator where
  proxies : List String
  cursor : Nat
  enabled : Bool

/-- Model of `ProxyRotator.__init__`. -/
def ProxyRotator.init (src : ProxySource) : ProxyRotator :=
  let ps := loadProxies src
  { proxies := ps, cursor := 0, enabled := !ps.isEmpty }

/-- Model of `get_next_proxy`: `None` when disabled, else the next proxy of the
cycle; returns the advanced rotator as well. -/
def get_next_proxy (r : ProxyRotator) : Option String × ProxyRotator :=
  if r.enabled then
    (r.proxies.get? (r.cursor % r.proxies.length),
     { r with cursor := r.cursor + 1 })
  else (none, r)

/-- The result of the `k`-th call to `get_next_proxy` (counting from 0). -/
def runNext (r : ProxyRotator) : Nat → Option String
  | 0 => (get_next_proxy r).1
  | k + 1 => runNext (get_next_proxy r).2 k

/-! ## Database statistics and cleanup (`DatabaseManager`, src/database.py)

`database.py` imports `os`, `List`, `Dict`, `MongoClient` and — from the
`datetime` module — only the name `datetime` (lines 7-10).  Its methods
also use the bare name `timedelta`; Python resolves such a name at call
time against the module scope, so the embedding threads that lookup
explicitly. -/

/-- The names bound at module scope in src/database.py. -/
def databaseModuleNames : List String :=
  ["os", "List", "Dict", "MongoClient", "datetime", "DatabaseManager"]

/-- Python name resolution inside database.py methods. -/
def resolveName (n : String) : Except String Unit :=
  if n ∈ databaseModuleNames then .ok ()
  else .error ("NameError: name " ++ n ++ " is not defined")

/-- One stored reel row, reduced to its `scraped_at` timestamp (seconds). -/
structure ReelRow where
  scraped_at : Int

/-- The `reels` collection. -/
structure DbState where
  reels : List ReelRow

/-- Model of `count_documents` with a `scraped_at >= cutoff` filter. -/
def countSince (db : DbState) (cutoff : Int) : Nat :=
  (db.reels.filter (fun r => cutoff ≤ r.scraped_at)).length

/-- The statistics record the spec assigns to `stats()`. -/
structure Stats where
  total : Nat
  last24h : Nat
  lastHour : Nat
deriving DecidableEq

/-- Model of `get_stats` (lines 38-50): builds the dict in key order — the total
count first, then `last_24h`, whose filter evaluates `now -
timedelta(days=1)` and therefore resolves the bare name `timedelta`. -/
def get_stats (db : DbState) (now : Int) : Except String Stats := do
  let _ ← resolveName "datetime"
  let total := db.reels.length
  let _ ← resolveName "timedelta"
  let last24h := countSince db (now - 86400)
  let _ ← resolveName "timedelta"
  let lastHour := countSince db (now - 3600)
  .ok { total := total, last24h := last24h, lastHour := lastHour }

/-- Model of `cleanup_old_data` (lines 52-57): `cutoff = datetime.now() -
timedelta(days=days)`, then delete rows with `scraped_at < cutoff`. -/
def cleanup_old_data (db : DbState) (now : Int) (days : Int) :
    Except String DbState := do
  let _ ← resolveName "datetime"
  let _ ← resolveName "timedelta"
  let cutoff := now - days * 86400
  .ok { reels := db.reels.filter (fun r => !(r.scraped_at < cutoff)) }

/-! ## Concrete pages and scripts used in the theorems -/

/-- A reel page with nothing on it. -/
def emptyPage : PageModel :=
  { navError := false, jsonLD := none, h1Text := none, spanText := none,
    timeDatetime := none }

/-- An account page whose very first evaluation raises (e.g. a private
account whose reels page cannot be processed). -/
def failingNavScript : AccountScript :=
  { initialHeight := .error (), steps := [], detailPage := fun _ => emptyPage }

/-! ## Helper lemmas -/

theorem runNext_disabled (ps : List String) (cur : Nat) :
    ∀ k, runNext { proxies := ps, cursor := cur, enabled := false } k = none := by
  intro k
  induction k generalizing cur with
  | zero => simp [runNext, get_next_proxy]
  | succ k ih => simpa [runNext, get_next_proxy] using ih cur

theorem runNext_enabled (ps : List String) :
    ∀ (k cur : Nat),
      runNext { proxies := ps, cursor := cur, enabled := true } k
        = ps.get? ((cur + k) % ps.length) := by
  intro k
  induction k with
  | zero => intro cur; simp [runNext, get_next_proxy]
  | succ k ih =>
    intro cur
    have h := ih (cur + 1)
    have harith : cur + 1 + k = cur + (k + 1) := by omega
    rw [harith] at h
    simpa [runNext, get_next_proxy] using h

/-- Segment of `xs` strictly before the first occurrence of `sep`: the
first element of the Python split. -/
def takeUntilSep (sep : List Char) : List Char → List Char
  | [] => []
  | x :: xs => if sep.isPrefixOf (x :: xs) then [] else x :: takeUntilSep sep xs

theorem splitFuel_ne_nil (sep : List Char) :
    ∀ (fuel : Nat) (xs cur : List Char), splitFuel sep fuel xs cur ≠ [] := by
  intro fuel
  induction fuel with
  | zero => intro xs cur; simp [splitFuel]
  | succ n ih =>
    intro xs cur
    cases xs with
    | nil => simp [splitFuel]
    | cons x t =>
      by_cases h : sep.isPrefixOf (x :: t)
      · simp [splitFuel, h]
      · simpa [splitFuel, h] using ih t (x :: cur)

theorem splitFuel_headD (sep : List Char) :
    ∀ (xs cur : List Char) (fuel : Nat), xs.length ≤ fuel →
      (splitFuel sep fuel xs cur).headD []
        = cur.reverse ++ takeUntilSep sep xs := by
  intro xs
  induction xs with
  | nil =>
    intro cur fuel _
    cases fuel <;> simp [splitFuel, takeUntilSep]
  | cons x t ih =>
    intro cur fuel hle
    cases fuel with
    | zero => simp at hle
    | succ n =>
      have hle' : t.length ≤ n := by
        simp only [List.length_cons] at hle
        omega
      by_cases h : sep.isPrefixOf (x :: t)
      · simp [splitFuel, h, takeUntilSep]
      · have hih := ih (x :: cur) n hle'
        simp only [splitFuel, takeUntilSep]
        rw [if_neg h, if_neg h, hih]
        simp

theorem splitFuel_no_occurrence (sep : List Char) :
    ∀ (xs cur : List Char) (fuel : Nat), xs.length ≤ fuel →
      containsSub sep xs = false →
      splitFuel sep fuel xs cur = [cur.reverse ++ xs] := by
  intro xs
  induction xs with
  | nil =>
    intro cur fuel _ _
    cases fuel <;> simp [splitFuel]
  | cons x t ih =>
    intro cur fuel hle hocc
    cases fuel with
    | zero => simp at hle
    | succ n =>
      have hle' : t.length ≤ n := by
        simp only [List.length_cons] at hle
        omega
      have hboth := hocc
      simp only [containsSub, Bool.or_eq_false_iff] at hboth
      have hih := ih (x :: cur) n hle' hboth.2
      simp only [splitFuel]
      rw [if_neg (by simp [hboth.1]), hih]
      simp

theorem string_mk_toList (l : List Char) : (String.mk l).toList = l := rfl

theorem string_mk_eq_empty (l : List Char) : String.mk l = "" ↔ l = [] := by
  constructor
  · intro h
    have := congrArg String.toList h
    simpa using this
  · intro h
    rw [h]

theorem string_toList_eq_nil (s : String) : s.toList = [] ↔ s = "" := by
  constructor
  · intro h
    calc s = String.mk s.toList := rfl
    _ = String.mk [] := by rw [h]
    _ = "" := rfl
  · intro h
    rw [h]
    rfl

theorem pySplit_headD (sep s : String) :
    (pySplit sep s).headD "" = String.mk (takeUntilSep sep.toList s.toList) := by
  unfold pySplit
  have hne := splitFuel_ne_nil sep.toList (s.toList.length + 1) s.toList []
  have hh := splitFuel_headD sep.toList s.toList [] (s.toList.length + 1)
    (Nat.le_succ _)
  obtain ⟨a, l, heq⟩ := List.exists_cons_of_ne_nil hne
  rw [heq] at hh
  simp only [List.headD_cons, List.reverse_nil, List.nil_append] at hh
  rw [heq]
  simp [hh]

theorem pySplit_no_occurrence (sep s : String) (h : pyIn sep s = false) :
    pySplit sep s = [s] := by
  unfold pySplit
  rw [splitFuel_no_occurrence sep.toList s.toList [] (s.toList.length + 1)
    (Nat.le_succ _) h]
  simp

theorem takeUntilSep_prefix_self (sep : List Char) :
    ∀ xs : List Char, takeUntilSep sep xs <+: xs := by
  intro xs
  induction xs with
  | nil => simp [takeUntilSep]
  | cons x t ih =>
    by_cases h : sep.isPrefixOf (x :: t)
    · simp [takeUntilSep, h]
    · obtain ⟨r, hr⟩ := ih
      exact ⟨r, by simp [takeUntilSep, h, hr]⟩

theorem isPrefixOf_singleton (c x : Char) (xs : List Char) :
    [c].isPrefixOf (x :: xs) = (c == x) := by
  simp [List.isPrefixOf]

theorem takeUntilSep_single_not_mem (c : Char) :
    ∀ xs : List Char, c ∉ takeUntilSep [c] xs := by
  intro xs
  induction xs with
  | nil => simp [takeUntilSep]
  | cons x t ih =>
    by_cases h : ([c].isPrefixOf (x :: t) : Bool)
    · simp [takeUntilSep, h]
    · have hne : c ≠ x := by
        rw [isPrefixOf_singleton] at h
        simpa using h
      simp [takeUntilSep, h, hne, ih]

theorem takeUntilSep_single_all (c : Char) :
    ∀ xs : List Char, c ∉ xs → takeUntilSep [c] xs = xs := by
  intro xs
  induction xs with
  | nil => intro _; rfl
  | cons x t ih =>
    intro hmem
    have hcx : c ≠ x := by
      intro hcx
      exact hmem (by rw [hcx]; exact List.mem_cons_self x t)
    have hmt : c ∉ t := fun hct => hmem (List.mem_cons_of_mem x hct)
    have hp : ([c].isPrefixOf (x :: t) : Bool) = false := by
      rw [isPrefixOf_singleton]
      exact beq_eq_false_iff_ne.mpr hcx
    simp [takeUntilSep, hp, ih hmt]

theorem takeUntilSep_single_eq_nil (c : Char) (l : List Char) :
    takeUntilSep [c] l = [] ↔ l = [] ∨ l.head? = some c := by
  cases l with
  | nil => simp [takeUntilSep]
  | cons x t =>
    by_cases h : ([c].isPrefixOf (x :: t) : Bool)
    · have hcx : c = x := by
        rw [isPrefixOf_singleton] at h
        simpa using h
      simp [takeUntilSep, h, hcx]
    · have hcx : c ≠ x := by
        rw [isPrefixOf_singleton] at h
        simpa using h
      have hstep : takeUntilSep [c] (x :: t) = x :: takeUntilSep [c] t := by
        simp [takeUntilSep, h]
      have hxc : x ≠ c := fun hx => hcx hx.symm
      simp [hstep, hxc]

theorem canonical_eq_takeUntil (s : String) :
    canonical s = String.mk (takeUntilSep [Char.ofNat 63] s.toList) := by
  rw [canonical, pySplit_headD]
  rfl

theorem canonical_idem (s : String) : canonical (canonical s) = canonical s := by
  rw [canonical_eq_takeUntil, canonical_eq_takeUntil, string_mk_toList,
    takeUntilSep_single_all _ _ (takeUntilSep_single_not_mem _ _)]

theorem feedCollect_invariant :
    ∀ (hrefs acc : List String), acc.Nodup → (∀ x ∈ acc, canonical x = x) →
      (feedCollect acc hrefs).Nodup ∧
      ∀ x ∈ feedCollect acc hrefs, canonical x = x := by
  intro hrefs
  induction hrefs with
  | nil =>
    intro acc hnd hfix
    exact ⟨hnd, hfix⟩
  | cons h t ih =>
    intro acc hnd hfix
    have hstep : feedCollect acc (h :: t)
        = feedCollect (if canonical h ∈ acc then acc
                       else acc.concat (canonical h)) t := by
      simp [feedCollect]
    rw [hstep]
    by_cases hmem : canonical h ∈ acc
    · rw [if_pos hmem]
      exact ih acc hnd hfix
    · rw [if_neg hmem]
      apply ih
      · rw [List.concat_eq_append, List.nodup_append]
        refine ⟨hnd, List.nodup_singleton _, ?_⟩
        intro a ha hb
        rw [List.mem_singleton] at hb
        rw [hb] at ha
        exact hmem ha
      · intro x hx
        rw [List.concat_eq_append, List.mem_append] at hx
        rcases hx with hx | hx
        · exact hfix x hx
        · have : x = canonical h := by simpa using hx
          rw [this]
          exact canonical_idem h

/-! ## Claims -/

/-- C2: on the scripted scroll-height readings `[100, 150, 150, 150, 150]`
(initial reading 100, then 150 at each re-measurement) the discovery loop
exits with `scroll_count = 4` and `attempts = 3` — exactly at the third
consecutive repeated reading — leaving the remaining scripted step
unconsumed and staying below the cap of 25; and any height change resets
the stall counter to 0. -/
theorem C2_stall_termination :
    scrollLoop 0 0 100 []
      [{ links := .ok [], height := .ok 150 },
       { links := .ok [], height := .ok 150 },
       { links := .ok [], height := .ok 150 },
       { links := .ok [], height := .ok 150 },
       { links := .ok [], height := .ok 150 }]
      = .ok { urls := [], scrollCount := 4, attempts := 3 } ∧
    4 < 25 ∧
    ∀ (lastHeight newHeight attempts : Nat), newHeight ≠ lastHeight →
      stallUpdate lastHeight newHeight attempts = 0 := by
  refine ⟨rfl, by omega, ?_⟩
  intro lastHeight newHeight attempts h
  simp [stallUpdate, h]

/-- Witness for C2: instantiating the reset clause at a concrete height
change. -/
theorem C2_witness : stallUpdate 100 150 2 = 0 :=
  C2_stall_termination.2.2 100 150 2 (by decide)

/-- C5: the claim is right and the code is wrong — `database.py` imports
only `datetime` from the `datetime` module but `get_stats` and
`cleanup_old_data` use the bare name `timedelta`, so both raise `NameError`
on every call, for every database state, instead of returning statistics or
purging old rows. -/
theorem C5_stats_and_cleanup_raise :
    ∀ (db : DbState) (now days : Int),
      get_stats db now = .error "NameError: name timedelta is not defined" ∧
      cleanup_old_data db now days
        = .error "NameError: name timedelta is not defined" := by
  intro db now days
  exact ⟨rfl, rfl⟩

/-- C6: when a 2FA prompt is detected but the verification-code input field
is absent or no externally supplied code is available, `handle_2fa` returns
`false` (it does not raise — the model is a total function); when no prompt
is detected at all it returns `true`. -/
theorem C6_handle_2fa_contract :
    ∀ p : TwoFAPage,
      (is2faScreen p = true →
        p.codeInputPresent = false ∨ p.userCode = none →
        handle_2fa p = false) ∧
      (is2faScreen p = false → handle_2fa p = true) := by
  intro p
  constructor
  · intro hs hf
    rcases hf with hin | hcode
    · cases hc : p.userCode with
      | none => simp [handle_2fa, hs, hc]
      | some c => simp [handle_2fa, hs, hc, hin]
    · simp [handle_2fa, hs, hcode]
  · intro hs
    simp [handle_2fa, hs]

/-- Witness for C6: a detected prompt with a missing input field fails; an
undetected prompt is trivially satisfied. -/
theorem C6_witness :
    handle_2fa { codeFieldDetected := true, keywordsPresent := false,
                 userCode := some "123456", codeInputPresent := false,
                 confirmButtonPresent := true } = false ∧
    handle_2fa { codeFieldDetected := false, keywordsPresent := false,
                 userCode := none, codeInputPresent := false,
                 confirmButtonPresent := false } = true :=
  ⟨(C6_handle_2fa_contract _).1 rfl (Or.inl rfl),
   (C6_handle_2fa_contract _).2 rfl⟩

/-- C7: when both the environment cookie JSON and the cookie file are valid,
the environment cookies are applied and the file is not consulted; the file
block runs exactly when the environment source did not load (absent,
unparsable, not a list, or failing to apply). -/
theorem C7_env_cookie_priority :
    (∀ csE csF : List String,
      load_cookies (.valid csE) (.valid csF)
        = { loaded := true, appliedCookies := some csE, fromEnv := true,
            fileConsulted := false }) ∧
    (∀ env file : CookieOutcome,
      (load_cookies env file).fileConsulted = true ↔ cookieLoads env = false) := by
  constructor
  · intro csE csF; rfl
  · intro env file
    cases env <;> cases file <;> simp [load_cookies, cookieLoads]

/-- C8: every exception in the navigation/URL-collection body of
`scrape_reels` is caught and the account yields `[]` — nothing propagates
(the page-text inspection of lines 232-243 only logs). -/
theorem C8_account_error_yields_empty :
    ∀ (s : AccountScript) (e : Unit),
      scrapeReelsBody s = .error e → scrape_reels s = [] := by
  intro s e h
  unfold scrape_reels
  rw [h]

/-- Witness for C8: the script whose first evaluation raises. -/
theorem C8_witness :
    scrapeReelsBody failingNavScript = .error () ∧
    scrape_reels failingNavScript = [] :=
  ⟨rfl, C8_account_error_yields_empty failingNavScript () rfl⟩

/-- C9: a missing, unreadable or empty proxy source disables rotation and
every call returns `none`; a non-empty loaded pool is cycled round-robin —
the `k`-th call (from zero) returns the proxy at index `k mod n`, which
always exists, and no call raises. -/
theorem C9_proxy_round_robin :
    (∀ (src : ProxySource) (k : Nat),
      loadProxies src = [] → runNext (ProxyRotator.init src) k = none) ∧
    (∀ (lines : List String) (k : Nat),
      loadProxies (.content lines) ≠ [] →
      runNext (ProxyRotator.init (.content lines)) k
          = (loadProxies (.content lines)).get?
              (k % (loadProxies (.content lines)).length) ∧
      ∃ p, runNext (ProxyRotator.init (.content lines)) k = some p) := by
  constructor
  · intro src k h
    show runNext { proxies := loadProxies src, cursor := 0,
                   enabled := !(loadProxies src).isEmpty } k = none
    rw [h]
    simpa only [List.isEmpty_nil, Bool.not_true] using runNext_disabled [] 0 k
  · intro lines k h
    have henabled : (loadProxies (.content lines)).isEmpty = false := by
      simpa [List.isEmpty_iff] using h
    have hrun :
        runNext (ProxyRotator.init (.content lines)) k
          = (loadProxies (.content lines)).get?
              (k % (loadProxies (.content lines)).length) := by
      show runNext { proxies := loadProxies (.content lines), cursor := 0,
                     enabled := !(loadProxies (.content lines)).isEmpty } k
          = _
      rw [henabled]
      simpa only [Bool.not_false, Nat.zero_add]
        using runNext_enabled (loadProxies (.content lines)) k 0
    refine ⟨hrun, ?_⟩
    have hlen : 0 < (loadProxies (.content lines)).length :=
      List.length_pos.mpr h
    have hidx : k % (loadProxies (.content lines)).length
        < (loadProxies (.content lines)).length := Nat.mod_lt _ hlen
    exact ⟨_, hrun.trans (List.get?_eq_get hidx)⟩

/-- Witness for C9: a pool loaded from lines with surrounding whitespace and
blanks, cycled past its length. -/
theorem C9_witness :
    runNext (ProxyRotator.init (.content ["p1", " p2 ", "", "p3"])) 4
      = some "p2" := by
  have h := (C9_proxy_round_robin.2 ["p1", " p2 ", "", "p3"] 4 (by decide)).1
  rw [h]
  decide

/-- The three links of the end-to-end discovery scenario. -/
def discoverySnapshot : List String :=
  ["https://x/reel/A/", "https://x/reel/A/?hl=en", "https://x/reel/B/"]

/-- A discovery pass whose DOM snapshots expose the three scenario links
(twice, overlapping) and whose scroll height never grows. -/
def overlappingScript : AccountScript :=
  { initialHeight := .ok 100,
    steps := [{ links := .ok discoverySnapshot, height := .ok 100 },
              { links := .ok discoverySnapshot, height := .ok 100 },
              { links := .ok [], height := .ok 100 }],
    detailPage := fun _ => emptyPage }

/-- Counterexample for C1: the igscraper discovery pass
(`scrape_reels`, igscraper/scraper.py 171-212) adds raw hrefs to its set, so
the scripted pass returns three entries of which two share the canonical
form A — not two canonical entries. -/
theorem C1_counterexample :
    discoveredUrls overlappingScript
      = ["https://x/reel/A/", "https://x/reel/A/?hl=en", "https://x/reel/B/"] ∧
    canonical "https://x/reel/A/" = canonical "https://x/reel/A/?hl=en" ∧
    "https://x/reel/A/" ≠ "https://x/reel/A/?hl=en" := by
  refine ⟨by decide, by decide, by decide⟩

/-- C1 (amended): the main.py feed collector
(`scrape_post_urls_from_feed`) strips query parameters before
deduplication, so its result never holds two entries with the same
canonical form, and the scenario snapshot yields exactly the two canonical
entries A and B; the igscraper pass deduplicates by exact URL only. -/
theorem C1_feed_canonical_dedup :
    feedCollect [] discoverySnapshot
      = ["https://x/reel/A/", "https://x/reel/B/"] ∧
    ∀ hrefs : List String,
      (feedCollect [] hrefs).Pairwise
        (fun a b => canonical a ≠ canonical b) := by
  constructor
  · decide
  · intro hrefs
    obtain ⟨hnd, hfix⟩ :=
      feedCollect_invariant hrefs [] List.nodup_nil (by intro x hx; cases hx)
    refine List.Pairwise.imp_of_mem ?_ hnd
    intro a b ha hb hne hcan
    exact hne (by rw [← hfix a ha, ← hfix b hb, hcan])

/-- A reel page whose JSON-LD carries an empty-string name and nothing
else, so the extracted caption is the empty string: non-null but falsy. -/
def blankNamePage : PageModel :=
  { navError := false,
    jsonLD := some { typeStr := "VideoObject", caption := none,
                     description := none, name := some "",
                     uploadDate := none, datePublished := none },
    h1Text := none, spanText := none, timeDatetime := none }

/-- A reel page whose JSON-LD carries the caption "hi". -/
def captionHiPage : PageModel :=
  { navError := false,
    jsonLD := some { typeStr := "VideoObject", caption := some "hi",
                     description := none, name := none,
                     uploadDate := none, datePublished := none },
    h1Text := none, spanText := none, timeDatetime := none }

/-- Counterexample for C3: a candidate with shortcode "abc" and the
non-null caption `""` is discarded — the code checks Python truthiness,
not non-nullness, so "shortcode present and caption non-null" does not
imply a record is returned. -/
theorem C3_counterexample :
    (buildDetails "https://x/reel/abc/" blankNamePage).shortcode = "abc" ∧
    (buildDetails "https://x/reel/abc/" blankNamePage).caption = some "" ∧
    (buildDetails "https://x/reel/abc/" blankNamePage).caption ≠ none ∧
    scrape_reel_details "https://x/reel/abc/" blankNamePage = none := by
  refine ⟨by decide, by decide, by decide, by decide⟩

/-- C3 (amended): on a non-failing page a record is returned iff the
derived shortcode is non-empty and at least one of caption and date is a
non-null, non-empty string (Python truthiness); in particular the candidate
with shortcode "abc123" and caption and date both null is discarded, the
one with caption "hi" is kept, and an empty derived shortcode is always
rejected regardless of the other fields. -/
theorem C3_validity_truthiness :
    (∀ (url : String) (pg : PageModel), pg.navError = false →
      (scrape_reel_details url pg = some (buildDetails url pg) ↔
        ((buildDetails url pg).shortcode ≠ "" ∧
         (truthy (buildDetails url pg).caption = true ∨
          truthy (buildDetails url pg).date = true)))) ∧
    (buildDetails "https://x/reel/abc123/" emptyPage).shortcode = "abc123" ∧
    (buildDetails "https://x/reel/abc123/" emptyPage).caption = none ∧
    (buildDetails "https://x/reel/abc123/" emptyPage).date = none ∧
    scrape_reel_details "https://x/reel/abc123/" emptyPage = none ∧
    (buildDetails "https://x/reel/abc123/" captionHiPage).caption = some "hi" ∧
    scrape_reel_details "https://x/reel/abc123/" captionHiPage
      = some (buildDetails "https://x/reel/abc123/" captionHiPage) ∧
    deriveShortcode "https://x/reel/" = "" ∧
    scrape_reel_details "https://x/reel/" captionHiPage = none := by
  refine ⟨?_, by decide, by decide, by decide, by decide, by decide,
    by decide, by decide, by decide⟩
  intro url pg hnav
  unfold scrape_reel_details
  rw [hnav]
  by_cases hv : validDetails (buildDetails url pg) = true
  · simp only [hv, if_true, if_false, Bool.false_eq_true, true_iff]
    simpa [validDetails, Bool.and_eq_true, Bool.or_eq_true,
      Bool.not_eq_true', beq_eq_false_iff_ne] using hv
  · simp only [Bool.not_eq_true] at hv
    simp only [hv, Bool.false_eq_true, if_false]
    constructor
    · intro h
      exact absurd h (by simp)
    · intro h
      have : validDetails (buildDetails url pg) = true := by
        simp [validDetails, Bool.and_eq_true, Bool.or_eq_true,
          Bool.not_eq_true', beq_eq_false_iff_ne]
        exact h
      rw [this] at hv
      cases hv

/-- Witness for C3: the accepted scenario record, through the theorem. -/
theorem C3_witness :
    scrape_reel_details "https://x/reel/abc123/" captionHiPage
      = some (buildDetails "https://x/reel/abc123/" captionHiPage) :=
  (C3_validity_truthiness.1 "https://x/reel/abc123/" captionHiPage rfl).mpr
    (by constructor
        · decide
        · left; decide)

/-- C4: if the JSON-LD strategy yields a (truthy) caption, the DOM caption
fallback does not run and the final caption is the JSON-LD one; if it
yields no caption, the fallback block runs exactly once. -/
theorem C4_fallback_precedence :
    ∀ (url : String) (pg : PageModel),
      (truthy (jsonLDExtract pg).1 = true →
        (buildDetails url pg).caption = (jsonLDExtract pg).1 ∧
        captionFallbackRuns url pg = 0) ∧
      (truthy (jsonLDExtract pg).1 = false →
        captionFallbackRuns url pg = 1) := by
  intro url pg
  rcases he : jsonLDExtract pg with ⟨cap0, date0⟩
  constructor
  · intro ht
    have ht' : truthy cap0 = true := by simpa using ht
    by_cases hd : truthy date0 = true
    · simp [buildDetails, buildDetailsI, captionFallbackRuns, he, ht', hd]
    · simp only [Bool.not_eq_true] at hd
      simp [buildDetails, buildDetailsI, captionFallbackRuns, he, ht', hd]
  · intro hf
    have hf' : truthy cap0 = false := by simpa using hf
    simp [buildDetails, buildDetailsI, captionFallbackRuns, he, hf']

/-- A reel page whose JSON-LD yields a caption while a DOM heading is also
present: the fallback must not override. -/
def jsonCaptionPage : PageModel :=
  { navError := false,
    jsonLD := some { typeStr := "VideoObject", caption := some "json cap",
                     description := none, name := none,
                     uploadDate := none, datePublished := none },
    h1Text := some "dom heading", spanText := none, timeDatetime := none }

/-- Witness for C4: the JSON-LD caption survives an available DOM heading
with zero fallback passes; with no JSON-LD caption the fallback runs once. -/
theorem C4_witness :
    (buildDetails "https://x/reel/Q/" jsonCaptionPage).caption
        = some "json cap" ∧
    captionFallbackRuns "https://x/reel/Q/" jsonCaptionPage = 0 ∧
    captionFallbackRuns "https://x/reel/Q/" emptyPage = 1 := by
  obtain ⟨h1, h2⟩ :=
    (C4_fallback_precedence "https://x/reel/Q/" jsonCaptionPage).1 (by decide)
  refine ⟨?_, h2, (C4_fallback_precedence "https://x/reel/Q/" emptyPage).2
    (by decide)⟩
  rw [h1]
  decide

/-- Counterexample for C10: the URL "/a" is non-empty and contains no
"/reel/" segment, yet its derived shortcode is the empty string — not a
non-empty prefix — and the missing-shortcode rejection branch fires even
though a caption is available. -/
theorem C10_counterexample :
    pyIn "/reel/" "/a" = false ∧
    "/a" ≠ "" ∧
    deriveShortcode "/a" = "" ∧
    scrape_reel_details "/a" captionHiPage = none := by
  refine ⟨by decide, by decide, by decide, by decide⟩

/-- C10 (amended): for every non-empty URL the derived shortcode is empty
iff the text after the last "/reel/" (the whole URL when "/reel/" is
absent) is empty or begins with a slash; consequently, for a URL with no
"/reel/" segment that does not begin with a slash, the shortcode is a
non-empty prefix of the URL. -/
theorem C10_shortcode_characterization :
    ∀ url : String, url ≠ "" →
      (deriveShortcode url = "" ↔
        ((pySplit "/reel/" url).getLastD "" = "" ∨
         ((pySplit "/reel/" url).getLastD "").toList.head?
           = some (Char.ofNat 47))) ∧
      (pyIn "/reel/" url = false →
        url.toList.head? ≠ some (Char.ofNat 47) →
        deriveShortcode url ≠ "" ∧
        (deriveShortcode url).toList <+: url.toList) := by
  intro url hurl
  have hshort : ∀ t : String,
      (pySplit "/" t).headD ""
        = String.mk (takeUntilSep [Char.ofNat 47] t.toList) := by
    intro t
    rw [pySplit_headD]
    rfl
  constructor
  · rw [deriveShortcode, hshort, string_mk_eq_empty,
      takeUntilSep_single_eq_nil]
    constructor
    · intro h
      rcases h with h | h
      · exact Or.inl ((string_toList_eq_nil _).mp h)
      · exact Or.inr h
    · intro h
      rcases h with h | h
      · exact Or.inl (by rw [h]; rfl)
      · exact Or.inr h
  · intro hocc hhead
    have htail : (pySplit "/reel/" url).getLastD "" = url := by
      rw [pySplit_no_occurrence "/reel/" url hocc]
      rfl
    have hsc : deriveShortcode url
        = String.mk (takeUntilSep [Char.ofNat 47] url.toList) := by
      rw [deriveShortcode, htail, hshort]
    constructor
    · rw [hsc]
      intro h
      rw [string_mk_eq_empty, takeUntilSep_single_eq_nil] at h
      rcases h with h | h
      · exact hurl ((string_toList_eq_nil url).mp h)
      · exact hhead h
    · rw [hsc, string_mk_toList]
      exact takeUntilSep_prefix_self _ url.toList

/-- Witness for C10: the URL "abc" has no "/reel/" segment and does not
begin with a slash, so its derived shortcode is non-empty. -/
theorem C10_witness :
    deriveShortcode "abc" ≠ "" ∧
    (deriveShortcode "abc").toList <+: "abc".toList :=
  (C10_shortcode_characterization "abc" (by decide)).2 (by decide) (by decide)

end IgScraper
